import Mathlib

/-!
Verification of the heading/outline extraction pipeline in `stripe.py`.

The Python source is shallowly embedded here:
* strings are processed as their `List Char` data; Python `str.strip` is
  modelled by dropping whitespace characters from both ends;
* the external Unicode NFC normalization (`unicodedata.normalize`) is
  modelled as the identity, which is exact for NFC-normal input (in
  particular all ASCII text and the concrete inputs used below);
* the regular expressions of the validator are modelled by executable
  matchers over `List Char`; Python's `\d`, `\s`, `\w` classes are
  modelled by their ASCII parts (`Char.isDigit`, `Char.isWhitespace`,
  `Char.isAlphanum`);
* Python's in-place stable `list.sort(key=...)` is modelled by
  `List.insertionSort` with the total preorder induced by the key
  (any two stable sorts with the same key agree); the mutation of the
  page-0 list performed by `extract_title` is made explicit in the
  `post` field of its result;
* `fitz.Rect.intersects` is modelled as sharing a rectangle of positive
  area; PyMuPDF font sizes and coordinates are modelled as rationals,
  with Python's `round(x, 1)` modelled as decimal rounding half-to-even.
-/

namespace Stripe

/-- Source constant `BUFFER_SIZE = 10` (buffer around a table for exclusion). -/
def BUFFER_SIZE : ℚ := 10

/-- Source constant `VERTICAL_TOLERANCE = 5` (merge tolerance for title lines). -/
def VERTICAL_TOLERANCE : ℚ := 5

/-- Source constant `MIN_HEADING_LEN = 2`. -/
def MIN_HEADING_LEN : ℕ := 2

/-- Source constant `MAX_HEADING_CHARS = 120`. -/
def MAX_HEADING_CHARS : ℕ := 120

/-- Python `str.strip()` on the character list of a string: whitespace is
removed from both ends. -/
def pyStrip (cs : List Char) : List Char :=
  ((cs.dropWhile Char.isWhitespace).reverse.dropWhile Char.isWhitespace).reverse

/-- Models `normalize_text`: `unicodedata.normalize("NFC", text.strip())`.
NFC is modelled as the identity (exact on NFC-normal input). -/
def normalize_text (s : String) : String :=
  ⟨pyStrip s.data⟩

/-- The characters of the string literal on the filler-check line of
`is_valid_heading`.  The file is mojibake-corrupted: the literal's actual
code points are `.` `Â` `·` `â` `€` `¢` `-` `_` (a double-encoding of the
intended `.·•-_`); in particular the bullet `•` is absent. -/
def fillerChars : List Char := ['.', 'Â', '·', 'â', '€', '¢', '-', '_']

/-- Case-insensitive literal matcher: consumes `pat` (case-insensitively)
from the front of the input and returns the rest, or fails. -/
def litCI : List Char → List Char → Option (List Char)
  | [], s => some s
  | _ :: _, [] => none
  | p :: ps, c :: cs => if c.toLower = p.toLower then litCI ps cs else none

/-- Regex `\s+`: drop at least one whitespace character. -/
def ws1 (s : List Char) : Option (List Char) :=
  match s with
  | c :: cs => if c.isWhitespace then some (cs.dropWhile Char.isWhitespace) else none
  | [] => none

/-- Regex `\d+`: drop at least one digit. -/
def digits1 (s : List Char) : Option (List Char) :=
  match s with
  | c :: cs => if c.isDigit then some (cs.dropWhile Char.isDigit) else none
  | [] => none

/-- Regex `\d{1,2}` (greedy; equivalent to the regex here since the
following pattern item is never a digit). -/
def digits1to2 (s : List Char) : Option (List Char) :=
  match s with
  | c :: cs =>
    if c.isDigit then
      match cs with
      | d :: ds => if d.isDigit then some ds else some cs
      | [] => some []
    else none
  | [] => none

/-- Regex `\d{n}`: exactly `n` digits. -/
def digitsExact : ℕ → List Char → Option (List Char)
  | 0, s => some s
  | _ + 1, [] => none
  | n + 1, c :: cs => if c.isDigit then digitsExact n cs else none

/-- Full match of regex alternative `Page\s+\d+` against the whole input. -/
def matchPageNum (s : List Char) : Bool :=
  (do
    let r1 ← litCI ['P', 'a', 'g', 'e'] s
    let r2 ← ws1 r1
    let r3 ← digits1 r2
    if r3 = [] then some () else none).isSome

/-- Full match of regex alternative `May\s+\d{1,2},\s+\d{4}`. -/
def matchMayDate (s : List Char) : Bool :=
  (do
    let r1 ← litCI ['M', 'a', 'y'] s
    let r2 ← ws1 r1
    let r3 ← digits1to2 r2
    let r4 ← litCI [','] r3
    let r5 ← ws1 r4
    let r6 ← digitsExact 4 r5
    if r6 = [] then some () else none).isSome

/-- Full match of regex alternative `Version\s+\d{4}`. -/
def matchVersion (s : List Char) : Bool :=
  (do
    let r1 ← litCI ['V', 'e', 'r', 's', 'i', 'o', 'n'] s
    let r2 ← ws1 r1
    let r3 ← digitsExact 4 r2
    if r3 = [] then some () else none).isSome

/-- The case-insensitive whole-string match
`^(Page\s+\d+|May\s+\d{1,2},\s+\d{4}|Version\s+\d{4})$`. -/
def matchDateHeader (s : List Char) : Bool :=
  matchPageNum s || matchMayDate s || matchVersion s

/-- Full match of `^\d{1,2}:\d{2}\s*(AM|PM|a\.m\.|p\.m\.)$` (IGNORECASE). -/
def matchClockTime (s : List Char) : Bool :=
  (do
    let r1 ← digits1to2 s
    let r2 ← litCI [':'] r1
    let r3 ← digitsExact 2 r2
    let r4 := r3.dropWhile Char.isWhitespace
    let r5 ← (litCI ['A', 'M'] r4 <|> litCI ['P', 'M'] r4 <|>
              litCI ['a', '.', 'm', '.'] r4 <|> litCI ['p', '.', 'm', '.'] r4)
    if r5 = [] then some () else none).isSome

/-- Full match of `^\d{1,2}/\d{1,2}/\d{4}$`. -/
def matchSlashDate (s : List Char) : Bool :=
  (do
    let r1 ← digits1to2 s
    let r2 ← litCI ['/'] r1
    let r3 ← digits1to2 r2
    let r4 ← litCI ['/'] r3
    let r5 ← digitsExact 4 r4
    if r5 = [] then some () else none).isSome

/-- Models `is_valid_heading` from the source, branch for branch. -/
def is_valid_heading (text : String) : Bool :=
  let t := (normalize_text text).data
  if t.isEmpty || t.length < MIN_HEADING_LEN then false
  else if t.all (fun c => fillerChars.contains c) then false
  else if matchDateHeader (pyStrip t) then false
  else if t.length > MAX_HEADING_CHARS then false
  else if matchClockTime t then false
  else if matchSlashDate t then false
  else true

/-- A rectangle `(x0, y0, x1, y1)` in page coordinates (a `fitz.Rect`). -/
structure Rect where
  x0 : ℚ
  y0 : ℚ
  x1 : ℚ
  y1 : ℚ
deriving DecidableEq, Repr

/-- Models `fitz.Rect.intersects`: the two rectangles share a common
rectangle of positive area. -/
def intersects (a b : Rect) : Bool :=
  decide (max a.x0 b.x0 < min a.x1 b.x1) && decide (max a.y0 b.y0 < min a.y1 b.y1)

/-- The buffered table rectangle
`fitz.Rect(x0 - BUFFER_SIZE, y0 - BUFFER_SIZE, x1 + BUFFER_SIZE, y1 + BUFFER_SIZE)`. -/
def bufferedRect (r : Rect) : Rect :=
  ⟨r.x0 - BUFFER_SIZE, r.y0 - BUFFER_SIZE, r.x1 + BUFFER_SIZE, r.y1 + BUFFER_SIZE⟩

/-- A span record as built by `extract_spans`. -/
structure Span where
  text : String
  font_size : ℚ
  is_bold : Bool
  bbox : Rect
  page : ℕ
deriving DecidableEq, Repr

/-- A raw text fragment as delivered by the external text extractor for one
page: `span["text"]`, `span["size"]`, `span["flags"]`, `span["bbox"]`. -/
structure Fragment where
  text : String
  size : ℚ
  flags : ℕ
  bbox : Rect
deriving DecidableEq, Repr

/-- One page of the document as seen by `extract_spans`: its text fragments
and the table bounding boxes found by the external table detector. -/
structure PageInput where
  fragments : List Fragment
  tables : List Rect
deriving DecidableEq, Repr

/-- Rounding half-to-even to an integer, as Python's `round` does. -/
def roundHalfEven (q : ℚ) : ℤ :=
  let n := ⌊q⌋
  let f := q - n
  if f < 1 / 2 then n
  else if 1 / 2 < f then n + 1
  else if 2 ∣ n then n else n + 1

/-- Python `round(x, 1)`. -/
def round1 (q : ℚ) : ℚ :=
  (roundHalfEven (10 * q) : ℚ) / 10

/-- The body of `extract_spans` for one page: fragments whose normalized
text fails `is_valid_heading`, or whose bbox intersects a buffered table
bbox, are dropped; the rest become spans tagged with the page number. -/
def pageSpans (pageNum : ℕ) (p : PageInput) : List Span :=
  let table_bboxes := p.tables.map bufferedRect
  p.fragments.filterMap fun f =>
    let t := normalize_text f.text
    if ¬ is_valid_heading t then none
    else if table_bboxes.any (fun tb => intersects f.bbox tb) then none
    else some { text := t, font_size := round1 f.size, is_bold := f.flags.testBit 1,
                bbox := f.bbox, page := pageNum }

/-- Models `extract_spans`: the per-page lists of accepted spans (the
Python `defaultdict` keyed by page number, here an entry per page). -/
def extract_spans (doc : List PageInput) : List (List Span) :=
  doc.enum.map fun p => pageSpans p.1 p.2

/-- The key order of the in-place sort on line 81 of the source:
`key=lambda s: (-s["font_size"], s["bbox"][1])`. -/
def titleSortLe (a b : Span) : Prop :=
  b.font_size < a.font_size ∨ (a.font_size = b.font_size ∧ a.bbox.y0 ≤ b.bbox.y0)

instance : DecidableRel titleSortLe := fun a b =>
  inferInstanceAs (Decidable (b.font_size < a.font_size ∨
    (a.font_size = b.font_size ∧ a.bbox.y0 ≤ b.bbox.y0)))

/-- The key order of the sort on line 86 of the source:
`key=lambda s: (s["bbox"][1], s["bbox"][0])`. -/
def titlePosLe (a b : Span) : Prop :=
  a.bbox.y0 < b.bbox.y0 ∨ (a.bbox.y0 = b.bbox.y0 ∧ a.bbox.x0 ≤ b.bbox.x0)

instance : DecidableRel titlePosLe := fun a b =>
  inferInstanceAs (Decidable (a.bbox.y0 < b.bbox.y0 ∨
    (a.bbox.y0 = b.bbox.y0 ∧ a.bbox.x0 ≤ b.bbox.x0)))

/-- Font size of the first span of a list, `0` for the empty list. -/
def headSize : List Span → ℚ
  | [] => 0
  | s :: _ => s.font_size

/-- The title-candidate merge loop of `extract_title` (lines 87-99):
state is the accumulated `lines`, the pending `current_line` and the
`prev_bottom` coordinate. -/
def mergeLoop : List Span → List String → String → Option ℚ → List String
  | [], lines, current_line, _ =>
    if (normalize_text current_line).data.isEmpty then lines
    else lines ++ [normalize_text current_line]
  | s :: rest, lines, current_line, prev_bottom =>
    let top := s.bbox.y0
    let st :=
      match prev_bottom with
      | some pb =>
        if |top - pb| > VERTICAL_TOLERANCE then (lines ++ [normalize_text current_line], "")
        else (lines, current_line)
      | none => (lines, current_line)
    mergeLoop rest st.1 (st.2 ++ " " ++ s.text) (some s.bbox.y1)

/-- Whole-string match of `^[\W_]+$` (non-word characters, `\w` modelled
by ASCII alphanumerics or underscore). -/
def allNonWord (t : String) : Bool :=
  !t.data.isEmpty && t.data.all fun c => !c.isAlphanum

/-- The result of `extract_title`: the title string, the returned list of
title spans, and `post`, the state of the caller's page-0 list after the
in-place sort on line 81. -/
structure TitleResult where
  title : String
  title_spans : List Span
  post : List Span
deriving DecidableEq, Repr

/-- The state of the page-0 list after the in-place stable sort on line 81
(`spans_page0.sort(key=lambda s: (-s["font_size"], s["bbox"][1]))`). -/
def titleSorted (spans_page0 : List Span) : List Span :=
  spans_page0.insertionSort titleSortLe

/-- Line 82: `max_size = spans_page0[0]["font_size"]` after the sort. -/
def max_size_of (spans_page0 : List Span) : ℚ :=
  headSize (titleSorted spans_page0)

/-- Lines 83-86: the title candidates (all spans at the maximum font
size), re-sorted by top then left coordinate. -/
def title_candidates (spans_page0 : List Span) : List Span :=
  ((titleSorted spans_page0).filter fun s => decide (s.font_size = max_size_of spans_page0)).insertionSort
    titlePosLe

/-- Models `extract_title` (lines 77-107 of the source). -/
def extract_title (spans_page0 : List Span) : TitleResult :=
  if spans_page0.isEmpty then ⟨"", [], spans_page0⟩
  else
    let title_spans := title_candidates spans_page0
    let lines := mergeLoop title_spans [] "" none
    let title_text := normalize_text (String.intercalate " " lines)
    if title_text.data.isEmpty || title_text.data.length < MIN_HEADING_LEN ||
        allNonWord title_text then
      ⟨"", [], titleSorted spans_page0⟩
    else
      ⟨title_text, title_spans, titleSorted spans_page0⟩

/-- Heading level, `"H1" | "H2" | "H3"` in the source. -/
inductive Level
  | H1
  | H2
  | H3
deriving DecidableEq, Repr

/-- The sort rank of a level: the dict `{"H1": 1, "H2": 2, "H3": 3}`. -/
def levelRank : Level → ℕ
  | .H1 => 1
  | .H2 => 2
  | .H3 => 3

/-- An outline entry `{"level": ..., "text": ..., "page": ...}`. -/
structure Heading where
  level : Level
  text : String
  page : ℕ
deriving DecidableEq, Repr

/-- The flattening `all_spans` of `spans_by_page.values()` (pages are in
ascending order, the dict preserving key insertion order). -/
def all_spans_of (spans_by_page : List (List Span)) : List Span :=
  spans_by_page.flatten

/-- Lines 115-117 of the source: remove every span whose text equals the
text of some title span. -/
def filtered_spans (spans_by_page : List (List Span)) (title_lines : List Span) : List Span :=
  let title_texts := title_lines.map Span.text
  (all_spans_of spans_by_page).filter fun s => !decide (s.text ∈ title_texts)

/-- Line 122-123: the distinct font sizes of the given spans, sorted in
descending order (`sorted(Counter(...).keys(), reverse=True)`). -/
def sorted_sizes (spans : List Span) : List ℚ :=
  ((spans.map Span.font_size).dedup).insertionSort fun a b => b ≤ a

/-- Line 125: `sorted_sizes[0] if len(sorted_sizes) > 0 else 0`. -/
def h1_size (ss : List ℚ) : ℚ :=
  ss.headD 0

/-- Line 126: `sorted_sizes[1] if len(sorted_sizes) > 1 else h1_size - 1`. -/
def h2_size (ss : List ℚ) : ℚ :=
  ss[1]?.getD (h1_size ss - 1)

/-- Line 127: `sorted_sizes[2] if len(sorted_sizes) > 2 else h2_size - 1`. -/
def h3_size (ss : List ℚ) : ℚ :=
  ss[2]?.getD (h2_size ss - 1)

/-- Lines 131-137: the level selected for one span, if any. -/
def levelOf (h1 h2 h3 : ℚ) (s : Span) : Option Level :=
  if s.font_size = h1 ∧ s.is_bold then some .H1
  else if s.font_size = h2 then some .H2
  else if s.font_size = h3 then some .H3
  else none

/-- Lines 129-144: the heading list before deduplication and sorting. -/
def rawHeadings (h1 h2 h3 : ℚ) (spans : List Span) : List Heading :=
  spans.filterMap fun s =>
    match levelOf h1 h2 h3 s with
    | some lvl => if is_valid_heading s.text then some ⟨lvl, s.text, s.page⟩ else none
    | none => none

/-- Lines 147-153: the `seen`-set duplicate-removal loop (a key here is the
whole record, as the key tuple lists every field of a heading). -/
def dedupKeep (seen : List Heading) : List Heading → List Heading
  | [] => []
  | h :: rest => if h ∈ seen then dedupKeep seen rest else h :: dedupKeep (h :: seen) rest

/-- The key order of the final sort on line 155:
`key=lambda x: (x["page"], rank(x["level"]))`. -/
def headingLe (a b : Heading) : Prop :=
  a.page < b.page ∨ (a.page = b.page ∧ levelRank a.level ≤ levelRank b.level)

instance : DecidableRel headingLe := fun a b =>
  inferInstanceAs (Decidable (a.page < b.page ∨
    (a.page = b.page ∧ levelRank a.level ≤ levelRank b.level)))

/-- Models `assign_heading_levels` (lines 110-156 of the source). -/
def assign_heading_levels (spans_by_page : List (List Span)) (title_lines : List Span) :
    List Heading :=
  let filtered := filtered_spans spans_by_page title_lines
  if filtered.isEmpty then []
  else
    let ss := sorted_sizes filtered
    let headings := rawHeadings (h1_size ss) (h2_size ss) (h3_size ss) filtered
    let unique_headings := dedupKeep [] headings
    unique_headings.insertionSort headingLe

/-- The outline value returned by `extract_outline_from_pdf`. -/
structure Outline where
  title : String
  outline : List Heading
deriving DecidableEq, Repr

/-- Models `extract_outline_from_pdf` (lines 159-170): note that the
in-place sort inside `extract_title` mutates the page-0 entry of
`spans_by_page`, which is made explicit here by substituting `tr.post`. -/
def extract_outline_from_pdf (doc : List PageInput) : Outline :=
  let spans_by_page := extract_spans doc
  let page0_spans := spans_by_page.headD []
  let tr := extract_title page0_spans
  let spans_by_page2 :=
    match spans_by_page with
    | [] => []
    | _ :: rest => tr.post :: rest
  ⟨tr.title, assign_heading_levels spans_by_page2 tr.title_spans⟩

/-- Modelled from the spec's words (§4.7): remove exact duplicate
`(level, text, page)` triples, first occurrence wins, order-preserving.
This is the spec-side definition, compared with the source's `dedupKeep`
loop in the theorem for the deduplication claim. -/
def firstOccurrenceDedup (l : List Heading) : List Heading :=
  l.foldl (fun acc x => if x ∈ acc then acc else acc ++ [x]) []

/-- The three fragments of the end-to-end scenario, already accepted as
spans on page 0. -/
def c1Spans : List Span :=
  [⟨"Title Text", 30, true, ⟨0, 10, 100, 20⟩, 0⟩,
   ⟨"Section A", 20, true, ⟨0, 40, 100, 48⟩, 0⟩,
   ⟨"sub note", 12, false, ⟨0, 60, 100, 66⟩, 0⟩]

/-- The two page-0 spans of the title-determinism scenario: tops 10 and 30,
bottoms 20 and 40, so the vertical gap 10 exceeds the tolerance 5. -/
def annSpans : List Span :=
  [⟨"Annual Report", 28, true, ⟨0, 10, 200, 20⟩, 0⟩,
   ⟨"2024 Edition", 28, true, ⟨0, 30, 150, 40⟩, 0⟩]

/-- A two-span page-0 list that is not sorted by descending font size. -/
def c9Pair : List Span :=
  [⟨"small heading", 10, false, ⟨0, 50, 100, 60⟩, 0⟩,
   ⟨"BIG TITLE", 20, true, ⟨0, 5, 100, 15⟩, 0⟩]

/-- A one-page document: the end-to-end fragments plus one large fragment
overlapping the buffered rectangle of the page's single table. -/
def exDoc : List PageInput :=
  [⟨[⟨"Title Text", 30, 2, ⟨0, 10, 100, 20⟩⟩,
     ⟨"Section A", 20, 2, ⟨0, 40, 100, 48⟩⟩,
     ⟨"sub note", 12, 0, ⟨0, 60, 100, 66⟩⟩,
     ⟨"Inside Table", 40, 2, ⟨10, 105, 90, 115⟩⟩],
    [⟨0, 120, 100, 200⟩]⟩]

/-- A single page of two same-size non-bold spans (for the no-heading
scenario). -/
def plainPage : List (List Span) :=
  [[⟨"Alpha One", 14, false, ⟨0, 0, 100, 10⟩, 0⟩,
    ⟨"Beta Two", 14, false, ⟨0, 20, 100, 30⟩, 0⟩]]

/-- A page with three distinct sizes and one duplicated span (so the
outline has a duplicate to remove and several levels to sort). -/
def c5Page : List (List Span) :=
  [[⟨"Fine Detail", 12, false, ⟨0, 60, 100, 70⟩, 0⟩,
    ⟨"Chapter One", 20, true, ⟨0, 0, 100, 10⟩, 0⟩,
    ⟨"Methods", 16, false, ⟨0, 20, 100, 30⟩, 0⟩,
    ⟨"Methods", 16, false, ⟨0, 20, 100, 30⟩, 0⟩]]

instance : IsTotal ℚ fun a b => b ≤ a :=
  ⟨fun a b => le_total b a⟩

instance : IsTrans ℚ fun a b => b ≤ a :=
  ⟨fun _ _ _ hab hbc => le_trans hbc hab⟩

instance : IsTotal Span titleSortLe := by
  constructor
  intro a b
  rcases lt_trichotomy a.font_size b.font_size with h | h | h
  · exact Or.inr (Or.inl h)
  · rcases le_total a.bbox.y0 b.bbox.y0 with h' | h'
    · exact Or.inl (Or.inr ⟨h, h'⟩)
    · exact Or.inr (Or.inr ⟨h.symm, h'⟩)
  · exact Or.inl (Or.inl h)

instance : IsTrans Span titleSortLe := by
  constructor
  intro a b c hab hbc
  rcases hab with h | ⟨h1, h2⟩ <;> rcases hbc with h' | ⟨h1', h2'⟩
  · exact Or.inl (h'.trans h)
  · exact Or.inl (h1' ▸ h)
  · exact Or.inl (h1 ▸ h')
  · exact Or.inr ⟨h1.trans h1', h2.trans h2'⟩

instance : IsTotal Span titlePosLe := by
  constructor
  intro a b
  rcases lt_trichotomy a.bbox.y0 b.bbox.y0 with h | h | h
  · exact Or.inl (Or.inl h)
  · rcases le_total a.bbox.x0 b.bbox.x0 with h' | h'
    · exact Or.inl (Or.inr ⟨h, h'⟩)
    · exact Or.inr (Or.inr ⟨h.symm, h'⟩)
  · exact Or.inr (Or.inl h)

instance : IsTrans Span titlePosLe := by
  constructor
  intro a b c hab hbc
  rcases hab with h | ⟨h1, h2⟩ <;> rcases hbc with h' | ⟨h1', h2'⟩
  · exact Or.inl (h.trans h')
  · exact Or.inl (h1' ▸ h)
  · exact Or.inl (h1 ▸ h')
  · exact Or.inr ⟨h1.trans h1', h2.trans h2'⟩

instance : IsTotal Heading headingLe := by
  constructor
  intro a b
  rcases lt_trichotomy a.page b.page with h | h | h
  · exact Or.inl (Or.inl h)
  · rcases le_total (levelRank a.level) (levelRank b.level) with h' | h'
    · exact Or.inl (Or.inr ⟨h, h'⟩)
    · exact Or.inr (Or.inr ⟨h.symm, h'⟩)
  · exact Or.inr (Or.inl h)

instance : IsTrans Heading headingLe := by
  constructor
  intro a b c hab hbc
  rcases hab with h | ⟨h1, h2⟩ <;> rcases hbc with h' | ⟨h1', h2'⟩
  · exact Or.inl (h.trans h')
  · exact Or.inl (h1' ▸ h)
  · exact Or.inl (h1 ▸ h')
  · exact Or.inr ⟨h1.trans h1', h2.trans h2'⟩

/-- The post-call state of the page-0 list is its stable sort by the title
key (the list is returned unsorted only when it is empty). -/
theorem extract_title_post_eq (l : List Span) : (extract_title l).post = titleSorted l := by
  unfold extract_title
  by_cases h : l.isEmpty
  · simp [h, List.isEmpty_iff.mp h, titleSorted]
  · simp only [h, Bool.false_eq_true, if_false]
    split <;> rfl

/-- The post-call state of the page-0 list is a permutation of the input. -/
theorem extract_title_post_perm (l : List Span) : (extract_title l).post.Perm l := by
  rw [extract_title_post_eq]
  exact List.perm_insertionSort _ _

/-- Membership in `sorted_sizes`: exactly the font sizes occurring among
the given spans. -/
theorem mem_sorted_sizes {l : List Span} {q : ℚ} :
    q ∈ sorted_sizes l ↔ q ∈ l.map Span.font_size := by
  simp [sorted_sizes, List.mem_insertionSort, List.mem_dedup]

/-- The list `sorted_sizes` has no duplicate entries. -/
theorem sorted_sizes_nodup (l : List Span) : (sorted_sizes l).Nodup := by
  unfold sorted_sizes
  exact (List.perm_insertionSort _ _).symm.nodup (List.nodup_dedup _)

/-- The list `sorted_sizes` is strictly descending. -/
theorem sorted_sizes_sorted (l : List Span) : (sorted_sizes l).Sorted (· > ·) := by
  have hs : (sorted_sizes l).Sorted fun a b => b ≤ a :=
    List.sorted_insertionSort _ _
  have hn := sorted_sizes_nodup l
  exact (hs.and hn).imp fun h => lt_of_le_of_ne h.1 h.2.symm

/-- For any strictly descending size list, the three thresholds computed by
lines 125-127 are pairwise distinct. -/
theorem thresholds_distinct {ss : List ℚ} (hs : ss.Sorted (· > ·)) :
    h1_size ss ≠ h2_size ss ∧ h1_size ss ≠ h3_size ss ∧ h2_size ss ≠ h3_size ss := by
  rcases ss with _ | ⟨a, _ | ⟨b, _ | ⟨c, t⟩⟩⟩
  · refine ⟨?_, ?_, ?_⟩ <;> simp [h1_size, h2_size, h3_size] <;> norm_num
  · refine ⟨?_, ?_, ?_⟩ <;> simp [h1_size, h2_size, h3_size] <;> intro h <;> linarith
  · simp only [List.sorted_cons, List.mem_cons, List.mem_singleton] at hs
    have hab : a > b := hs.1 b (Or.inl rfl)
    refine ⟨?_, ?_, ?_⟩ <;> simp [h1_size, h2_size, h3_size] <;> intro h <;> linarith
  · simp only [List.sorted_cons, List.mem_cons] at hs
    have hab : a > b := hs.1 b (Or.inl rfl)
    have hac : a > c := hs.1 c (Or.inr (Or.inl rfl))
    have hbc : b > c := hs.2.1 c (Or.inl rfl)
    refine ⟨?_, ?_, ?_⟩ <;> simp [h1_size, h2_size, h3_size] <;> intro h <;> linarith

/-- Elements produced by the duplicate-removal loop come from its input. -/
theorem mem_dedupKeep {seen l : List Heading} {x : Heading} (h : x ∈ dedupKeep seen l) :
    x ∈ l := by
  induction l generalizing seen with
  | nil => simp [dedupKeep] at h
  | cons a rest ih =>
    unfold dedupKeep at h
    split at h
    · exact List.mem_cons_of_mem _ (ih h)
    · rcases List.mem_cons.mp h with h' | h'
      · exact h' ▸ List.mem_cons_self _ _
      · exact List.mem_cons_of_mem _ (ih h')

/-- Elements produced by the duplicate-removal loop were not yet seen. -/
theorem dedupKeep_not_mem_seen {seen l : List Heading} {x : Heading}
    (h : x ∈ dedupKeep seen l) : x ∉ seen := by
  induction l generalizing seen with
  | nil => simp [dedupKeep] at h
  | cons a rest ih =>
    unfold dedupKeep at h
    split at h
    · exact ih h
    · rcases List.mem_cons.mp h with h' | h'
      · subst h'
        assumption
      · intro hx
        exact ih h' (List.mem_cons_of_mem _ hx)

/-- The duplicate-removal loop yields a duplicate-free list. -/
theorem dedupKeep_nodup (seen l : List Heading) : (dedupKeep seen l).Nodup := by
  induction l generalizing seen with
  | nil => simp [dedupKeep]
  | cons a rest ih =>
    unfold dedupKeep
    split
    · exact ih seen
    · exact List.nodup_cons.mpr
        ⟨fun hx => dedupKeep_not_mem_seen hx (List.mem_cons_self _ _), ih (a :: seen)⟩

/-- The duplicate-removal loop only inspects the seen set through
membership. -/
theorem dedupKeep_congr (seen₁ seen₂ : List Heading) (l : List Heading)
    (h : ∀ a, a ∈ seen₁ ↔ a ∈ seen₂) : dedupKeep seen₁ l = dedupKeep seen₂ l := by
  induction l generalizing seen₁ seen₂ with
  | nil => rfl
  | cons a rest ih =>
    unfold dedupKeep
    by_cases ha : a ∈ seen₁
    · simp only [if_pos ha, if_pos ((h a).mp ha)]
      exact ih _ _ h
    · simp only [if_neg ha, if_neg (fun hx => ha ((h a).mpr hx))]
      refine congrArg _ (ih _ _ ?_)
      intro x
      simp [List.mem_cons, h x]

/-- The spec-side fold ("first occurrence wins") agrees with the source's
seen-set loop, for every accumulator. -/
theorem foldl_dedup_eq (l : List Heading) :
    ∀ acc : List Heading,
      l.foldl (fun acc x => if x ∈ acc then acc else acc ++ [x]) acc = acc ++ dedupKeep acc l := by
  induction l with
  | nil => intro acc; simp [dedupKeep]
  | cons a rest ih =>
    intro acc
    by_cases ha : a ∈ acc
    · simp only [List.foldl_cons, if_pos ha]
      unfold dedupKeep
      rw [if_pos ha]
      exact ih acc
    · simp only [List.foldl_cons, if_neg ha]
      unfold dedupKeep
      rw [if_neg ha, ih (acc ++ [a])]
      rw [dedupKeep_congr (acc ++ [a]) (a :: acc) rest (by intro x; simp [or_comm])]
      simp

/-- The source's duplicate-removal loop computes exactly the spec-side
first-occurrence deduplication. -/
theorem firstOccurrenceDedup_eq (l : List Heading) :
    firstOccurrenceDedup l = dedupKeep [] l := by
  simpa [firstOccurrenceDedup] using foldl_dedup_eq l []

/-- The function `assign_heading_levels` unconditionally equals sort-of-dedup-of-raw
(when no span survives, the raw heading list is empty as well). -/
theorem assign_eq (sbp : List (List Span)) (tl : List Span) :
    assign_heading_levels sbp tl =
      (dedupKeep []
        (rawHeadings (h1_size (sorted_sizes (filtered_spans sbp tl)))
          (h2_size (sorted_sizes (filtered_spans sbp tl)))
          (h3_size (sorted_sizes (filtered_spans sbp tl)))
          (filtered_spans sbp tl))).insertionSort headingLe := by
  by_cases hemp : (filtered_spans sbp tl).isEmpty
  · rw [List.isEmpty_iff] at hemp
    simp [assign_heading_levels, hemp, rawHeadings, dedupKeep]
  · simp [assign_heading_levels, hemp]

/-- Every heading produced by `assign_heading_levels` stems from a
surviving span with a matching level, a validated text, and the span's
text and page. -/
theorem mem_assign {sbp : List (List Span)} {tl : List Span} {h : Heading}
    (hm : h ∈ assign_heading_levels sbp tl) :
    ∃ s ∈ filtered_spans sbp tl,
      levelOf (h1_size (sorted_sizes (filtered_spans sbp tl)))
          (h2_size (sorted_sizes (filtered_spans sbp tl)))
          (h3_size (sorted_sizes (filtered_spans sbp tl))) s = some h.level ∧
        is_valid_heading s.text = true ∧ h.text = s.text ∧ h.page = s.page := by
  rw [assign_eq] at hm
  rw [List.mem_insertionSort] at hm
  have hraw := mem_dedupKeep hm
  rw [rawHeadings, List.mem_filterMap] at hraw
  obtain ⟨s, hs, heq⟩ := hraw
  refine ⟨s, hs, ?_⟩
  rcases hlv : levelOf (h1_size (sorted_sizes (filtered_spans sbp tl)))
      (h2_size (sorted_sizes (filtered_spans sbp tl)))
      (h3_size (sorted_sizes (filtered_spans sbp tl))) s with _ | lvl
  · rw [hlv] at heq
    simp at heq
  · rw [hlv] at heq
    have heq' : (if is_valid_heading s.text then
        some (⟨lvl, s.text, s.page⟩ : Heading) else none) = some h := heq
    by_cases hv : is_valid_heading s.text
    · rw [if_pos hv] at heq'
      obtain rfl := Option.some.inj heq'
      exact ⟨rfl, hv, rfl, rfl⟩
    · rw [if_neg hv] at heq'
      simp at heq'

/-- Spans accepted by `extract_spans` never intersect a buffered table
rectangle of their page. -/
theorem pageSpans_no_table {i : ℕ} {p : PageInput} {s : Span} (hs : s ∈ pageSpans i p) :
    ∀ tb ∈ p.tables, intersects s.bbox (bufferedRect tb) = false := by
  intro tb htb
  rw [pageSpans, List.mem_filterMap] at hs
  obtain ⟨f, hf, heq⟩ := hs
  simp only at heq
  split at heq
  · simp at heq
  · split at heq
    · simp at heq
    · rename_i hany
      obtain rfl := Option.some.inj heq
      have hfalse : (p.tables.map bufferedRect).any (fun tb => intersects f.bbox tb) = false := by
        simpa using hany
      rw [List.any_eq_false] at hfalse
      simpa using hfalse _ (List.mem_map_of_mem _ htb)

/-- Spans accepted by `extract_spans` carry the number of their page. -/
theorem pageSpans_page {i : ℕ} {p : PageInput} {s : Span} (hs : s ∈ pageSpans i p) :
    s.page = i := by
  rw [pageSpans, List.mem_filterMap] at hs
  obtain ⟨f, hf, heq⟩ := hs
  simp only at heq
  split at heq
  · simp at heq
  · split at heq
    · simp at heq
    · obtain rfl := Option.some.inj heq
      rfl

/-- The per-page entries of `extract_spans`. -/
theorem extract_spans_getElem? (doc : List PageInput) (i : ℕ) :
    (extract_spans doc)[i]? = (doc[i]?).map (pageSpans i) := by
  simp only [extract_spans, List.enum, List.getElem?_map, List.getElem?_enumFrom, Option.map_map]
  cases doc[i]? <;> simp [Nat.zero_add]

/-- C1, counterexample: on the claimed single-page scenario (fragments
"Title Text" size 30 bold, "Section A" size 20 bold, "sub note" size 12
not bold) the pipeline does NOT produce the outline
`[{H1, "Section A", 0}]` claimed: the size-12 span is not dropped. -/
theorem c1_counterexample :
    ¬ ((extract_title c1Spans).title = "Title Text" ∧
      assign_heading_levels [(extract_title c1Spans).post] (extract_title c1Spans).title_spans =
        [⟨Level.H1, "Section A", 0⟩]) := by
  decide

/-- C1, amended: the pipeline on that scenario produces title "Title Text"
and outline `[{H1, "Section A", 0}, {H2, "sub note", 0}]`: with exactly two
distinct non-title sizes, H2-size is the second-largest (12), so the
size-12 fragment becomes an H2 heading instead of being dropped. -/
theorem c1_amended :
    (extract_title c1Spans).title = "Title Text" ∧
    assign_heading_levels [(extract_title c1Spans).post] (extract_title c1Spans).title_spans =
      [⟨Level.H1, "Section A", 0⟩, ⟨Level.H2, "sub note", 0⟩] := by
  decide

/-- C2: after title-text exclusion, `sorted_sizes` is the strictly
descending list of exactly the distinct font sizes of the remaining spans;
H1-size is the largest size; H2-size is the second-largest entry, or
H1-size minus 1 when fewer than two distinct sizes exist; H3-size is the
third-largest entry, or H2-size minus 1 when fewer than three exist. -/
theorem c2_thresholds (sbp : List (List Span)) (tl : List Span) :
    (sorted_sizes (filtered_spans sbp tl)).Sorted (· > ·) ∧
    (∀ q : ℚ, q ∈ sorted_sizes (filtered_spans sbp tl) ↔
      q ∈ (filtered_spans sbp tl).map Span.font_size) ∧
    (filtered_spans sbp tl ≠ [] →
      h1_size (sorted_sizes (filtered_spans sbp tl)) ∈
          (filtered_spans sbp tl).map Span.font_size ∧
        ∀ q ∈ (filtered_spans sbp tl).map Span.font_size,
          q ≤ h1_size (sorted_sizes (filtered_spans sbp tl))) ∧
    (∀ hl : 2 ≤ (sorted_sizes (filtered_spans sbp tl)).length,
      h2_size (sorted_sizes (filtered_spans sbp tl)) =
        (sorted_sizes (filtered_spans sbp tl)).get ⟨1, by omega⟩) ∧
    ((sorted_sizes (filtered_spans sbp tl)).length < 2 →
      h2_size (sorted_sizes (filtered_spans sbp tl)) =
        h1_size (sorted_sizes (filtered_spans sbp tl)) - 1) ∧
    (∀ hl : 3 ≤ (sorted_sizes (filtered_spans sbp tl)).length,
      h3_size (sorted_sizes (filtered_spans sbp tl)) =
        (sorted_sizes (filtered_spans sbp tl)).get ⟨2, by omega⟩) ∧
    ((sorted_sizes (filtered_spans sbp tl)).length < 3 →
      h3_size (sorted_sizes (filtered_spans sbp tl)) =
        h2_size (sorted_sizes (filtered_spans sbp tl)) - 1) := by
  refine ⟨sorted_sizes_sorted _, fun q => mem_sorted_sizes, ?_, ?_, ?_, ?_, ?_⟩
  · intro hne
    have hsort := sorted_sizes_sorted (filtered_spans sbp tl)
    have hne' : sorted_sizes (filtered_spans sbp tl) ≠ [] := by
      rcases hfe : filtered_spans sbp tl with _ | ⟨s, rest⟩
      · exact absurd hfe hne
      · intro hnil
        have hmem : s.font_size ∈ sorted_sizes (filtered_spans sbp tl) := by
          rw [mem_sorted_sizes, hfe]
          exact List.mem_map_of_mem _ (List.mem_cons_self _ _)
        rw [hfe, hnil] at hmem
        simp at hmem
    rcases hss : sorted_sizes (filtered_spans sbp tl) with _ | ⟨a, t⟩
    · exact absurd hss hne'
    constructor
    · have ha : a ∈ sorted_sizes (filtered_spans sbp tl) := hss ▸ List.mem_cons_self a t
      rw [mem_sorted_sizes] at ha
      simpa [h1_size] using ha
    · intro q hq
      have hq' : q ∈ sorted_sizes (filtered_spans sbp tl) := mem_sorted_sizes.mpr hq
      rw [hss] at hq' hsort
      simp only [h1_size, List.headD_cons]
      rcases List.mem_cons.mp hq' with rfl | hq''
      · exact le_refl _
      · exact le_of_lt (List.rel_of_sorted_cons hsort q hq'')
  · intro hl
    rw [h2_size, List.getElem?_eq_getElem (by omega)]
    simp [List.get_eq_getElem]
  · intro hl
    rw [h2_size, List.getElem?_eq_none (by omega)]
    rfl
  · intro hl
    rw [h3_size, List.getElem?_eq_getElem (by omega)]
    simp [List.get_eq_getElem]
  · intro hl
    rw [h3_size, List.getElem?_eq_none (by omega)]
    rfl

/-- C2, witness: on a page of two same-size spans there is exactly one
distinct size 14, so H1-size is 14 and the fallbacks give 13 and 12. -/
theorem c2_witness :
    h1_size (sorted_sizes (filtered_spans plainPage [])) ∈
        (filtered_spans plainPage []).map Span.font_size ∧
      h2_size (sorted_sizes (filtered_spans plainPage [])) =
        h1_size (sorted_sizes (filtered_spans plainPage [])) - 1 ∧
      h3_size (sorted_sizes (filtered_spans plainPage [])) =
        h2_size (sorted_sizes (filtered_spans plainPage [])) - 1 := by
  obtain ⟨-, -, hmax, -, hh2, -, hh3⟩ := c2_thresholds plainPage []
  exact ⟨(hmax (by decide)).1, hh2 (by decide), hh3 (by decide)⟩

/-- C8, code evaluation at the failing input: a string consisting entirely
of bullet characters is ACCEPTED by `is_valid_heading`, because the
mojibake-corrupted filler literal does not contain the bullet `•`
(the source comment "Dotted/line filler" and the intended `.·•-_` say it
should be rejected). -/
theorem c8_bullets_accepted : is_valid_heading "••" = true := by
  decide

/-- C9, counterexample: `extract_title` does not leave its input list
unchanged: on a two-span list not sorted by descending font size, the
in-place sort of line 81 reorders the caller's list. -/
theorem c9_counterexample : (extract_title c9Pair).post ≠ c9Pair := by
  decide

/-- C9, amended: the pipeline's only mutation is the in-place sort in
`extract_title`: the page-0 list afterwards is exactly its stable sort by
(descending font size, top coordinate) — in particular a permutation of
the input (same elements, possibly reordered); `assign_heading_levels`
mutates nothing (it is a pure function of its arguments in this model). -/
theorem c9_amended (l : List Span) :
    (extract_title l).post = l.insertionSort titleSortLe ∧ (extract_title l).post.Perm l :=
  ⟨extract_title_post_eq l, extract_title_post_perm l⟩

/-- C9, amended, witness at a concrete input. -/
theorem c9_amended_witness :
    (extract_title c9Pair).post = c9Pair.insertionSort titleSortLe ∧
      (extract_title c9Pair).post.Perm c9Pair :=
  c9_amended c9Pair

/-- Case analysis of the `if`-`elif` chain of lines 131-137, valid whenever
the three thresholds are pairwise distinct. -/
theorem levelOf_spec (q1 q2 q3 : ℚ) (hd12 : q1 ≠ q2) (hd13 : q1 ≠ q3) (hd23 : q2 ≠ q3)
    (s : Span) :
    (levelOf q1 q2 q3 s = some Level.H1 ↔ s.font_size = q1 ∧ s.is_bold = true) ∧
    (levelOf q1 q2 q3 s = some Level.H2 ↔ s.font_size = q2) ∧
    (levelOf q1 q2 q3 s = some Level.H3 ↔ s.font_size = q3) ∧
    (levelOf q1 q2 q3 s = none ↔
      ¬(s.font_size = q1 ∧ s.is_bold = true) ∧ s.font_size ≠ q2 ∧ s.font_size ≠ q3) := by
  unfold levelOf
  split_ifs with c1 c2 c3 <;> simp_all

/-- C3: with the thresholds computed by `assign_heading_levels` (which are
always pairwise distinct), a surviving span is labeled H1 exactly when its
size equals H1-size and it is bold, H2 exactly when its size equals
H2-size (regardless of boldness), H3 exactly when its size equals H3-size,
and receives no level otherwise; every heading of the output arises from a
surviving span that received a level. -/
theorem c3_level_rules (sbp : List (List Span)) (tl : List Span) :
    (h1_size (sorted_sizes (filtered_spans sbp tl)) ≠
        h2_size (sorted_sizes (filtered_spans sbp tl)) ∧
      h1_size (sorted_sizes (filtered_spans sbp tl)) ≠
        h3_size (sorted_sizes (filtered_spans sbp tl)) ∧
      h2_size (sorted_sizes (filtered_spans sbp tl)) ≠
        h3_size (sorted_sizes (filtered_spans sbp tl))) ∧
    (∀ s ∈ filtered_spans sbp tl,
      (levelOf (h1_size (sorted_sizes (filtered_spans sbp tl)))
            (h2_size (sorted_sizes (filtered_spans sbp tl)))
            (h3_size (sorted_sizes (filtered_spans sbp tl))) s = some Level.H1 ↔
          s.font_size = h1_size (sorted_sizes (filtered_spans sbp tl)) ∧ s.is_bold = true) ∧
        (levelOf (h1_size (sorted_sizes (filtered_spans sbp tl)))
            (h2_size (sorted_sizes (filtered_spans sbp tl)))
            (h3_size (sorted_sizes (filtered_spans sbp tl))) s = some Level.H2 ↔
          s.font_size = h2_size (sorted_sizes (filtered_spans sbp tl))) ∧
        (levelOf (h1_size (sorted_sizes (filtered_spans sbp tl)))
            (h2_size (sorted_sizes (filtered_spans sbp tl)))
            (h3_size (sorted_sizes (filtered_spans sbp tl))) s = some Level.H3 ↔
          s.font_size = h3_size (sorted_sizes (filtered_spans sbp tl))) ∧
        (levelOf (h1_size (sorted_sizes (filtered_spans sbp tl)))
            (h2_size (sorted_sizes (filtered_spans sbp tl)))
            (h3_size (sorted_sizes (filtered_spans sbp tl))) s = none ↔
          ¬(s.font_size = h1_size (sorted_sizes (filtered_spans sbp tl)) ∧ s.is_bold = true) ∧
            s.font_size ≠ h2_size (sorted_sizes (filtered_spans sbp tl)) ∧
              s.font_size ≠ h3_size (sorted_sizes (filtered_spans sbp tl)))) ∧
    (∀ h ∈ assign_heading_levels sbp tl, ∃ s ∈ filtered_spans sbp tl,
      levelOf (h1_size (sorted_sizes (filtered_spans sbp tl)))
          (h2_size (sorted_sizes (filtered_spans sbp tl)))
          (h3_size (sorted_sizes (filtered_spans sbp tl))) s = some h.level ∧
        h.text = s.text ∧ h.page = s.page) := by
  obtain ⟨h12, h13, h23⟩ := thresholds_distinct (sorted_sizes_sorted (filtered_spans sbp tl))
  refine ⟨⟨h12, h13, h23⟩, ?_, ?_⟩
  · intro s hs
    exact levelOf_spec _ _ _ h12 h13 h23 s
  · intro h hm
    obtain ⟨s, hs, hlv, _, htext, hpage⟩ := mem_assign hm
    exact ⟨s, hs, hlv, htext, hpage⟩

/-- C3, witness: on the two-span one-size non-bold page, the first span
receives no level (its size matches H1-size but it is not bold, and the
fallback H2/H3 sizes match no span). -/
theorem c3_witness :
    levelOf (h1_size (sorted_sizes (filtered_spans plainPage [])))
        (h2_size (sorted_sizes (filtered_spans plainPage [])))
        (h3_size (sorted_sizes (filtered_spans plainPage [])))
        ⟨"Alpha One", 14, false, ⟨0, 0, 100, 10⟩, 0⟩ = none := by
  have h := (c3_level_rules plainPage []).2.1 ⟨"Alpha One", 14, false, ⟨0, 0, 100, 10⟩, 0⟩
    (by decide)
  refine h.2.2.2.mpr ?_
  have hss : sorted_sizes (filtered_spans plainPage []) = [14] := by decide
  rw [hss]
  simp only [h1_size, h2_size, h3_size, List.headD_cons]
  norm_num

/-- Evaluation of the merge loop on the two-span scenario: the vertical
gap 30 minus 20 exceeds the tolerance 5, so a second line is started. -/
theorem mergeLoop_ann :
    mergeLoop annSpans [] "" none = ["Annual Report", "2024 Edition"] := by
  have hgt : |(30 : ℚ) - 20| > VERTICAL_TOLERANCE := by
    norm_num [VERTICAL_TOLERANCE]
  simp only [annSpans, mergeLoop]
  rw [if_pos hgt]
  decide

/-- Evaluation of `extract_title` on the two-span scenario. -/
theorem extract_title_ann :
    extract_title annSpans = ⟨"Annual Report 2024 Edition", annSpans, annSpans⟩ := by
  have hcand : title_candidates annSpans = annSpans := by decide
  have hsorted : titleSorted annSpans = annSpans := by decide
  simp only [extract_title, hcand, hsorted, mergeLoop_ann]
  decide

/-- C4: for a non-empty page-0 list, the title-candidate selection picks
exactly the spans at the maximum page-0 font size, ordered by top then
left coordinate; on the two-span scenario with tops 10 and 30 (gap 10, at
least the tolerance 5) the extracted title is exactly
"Annual Report 2024 Edition". -/
theorem c4_title (l : List Span) (hne : l ≠ []) :
    (max_size_of l ∈ l.map Span.font_size ∧
      ∀ q ∈ l.map Span.font_size, q ≤ max_size_of l) ∧
    (∀ s : Span, s ∈ title_candidates l ↔ s ∈ l ∧ s.font_size = max_size_of l) ∧
    (title_candidates l).Sorted titlePosLe ∧
    (extract_title annSpans).title = "Annual Report 2024 Edition" ∧
    (extract_title annSpans).title_spans = annSpans := by
  have hperm : (titleSorted l).Perm l := List.perm_insertionSort _ _
  have hsorted : (titleSorted l).Sorted titleSortLe := List.sorted_insertionSort _ _
  rcases hts : titleSorted l with _ | ⟨a, t⟩
  · exact absurd (List.Perm.eq_nil (hts ▸ hperm).symm) hne
  refine ⟨⟨?_, ?_⟩, ?_, ?_,
    by rw [extract_title_ann], by rw [extract_title_ann]⟩
  · have ha : a ∈ l := hperm.mem_iff.mp (hts ▸ List.mem_cons_self a t)
    have : max_size_of l = a.font_size := by
      rw [max_size_of, hts]
      rfl
    rw [this]
    exact List.mem_map_of_mem _ ha
  · intro q hq
    rw [List.mem_map] at hq
    obtain ⟨s, hsl, rfl⟩ := hq
    have hs' : s ∈ titleSorted l := hperm.mem_iff.mpr hsl
    rw [hts] at hs' hsorted
    have hmax : max_size_of l = a.font_size := by
      rw [max_size_of, hts]
      rfl
    rw [hmax]
    rcases List.mem_cons.mp hs' with rfl | hst
    · exact le_refl _
    · rcases List.rel_of_sorted_cons hsorted s hst with hlt | ⟨heq, -⟩
      · exact le_of_lt hlt
      · exact le_of_eq heq.symm
  · intro s
    rw [title_candidates, List.mem_insertionSort, List.mem_filter]
    rw [hperm.mem_iff]
    simp [decide_eq_true_eq]
  · exact List.sorted_insertionSort _ _

/-- C4, witness at the concrete two-span scenario. -/
theorem c4_witness :
    (extract_title annSpans).title = "Annual Report 2024 Edition" ∧
      (title_candidates annSpans).Sorted titlePosLe := by
  obtain ⟨-, -, hsorted, htitle, -⟩ := c4_title annSpans (by decide)
  exact ⟨htitle, hsorted⟩

/-- C10: when the surviving spans have a single distinct font size and
none of them is bold, no heading is produced: H1 needs boldness at the
top size, and the fallback H2/H3 sizes (one and two less) match no span. -/
theorem c10_no_headings (sbp : List (List Span)) (tl : List Span)
    (hne : filtered_spans sbp tl ≠ [])
    (hsz : ∀ s ∈ filtered_spans sbp tl, ∀ t ∈ filtered_spans sbp tl,
      s.font_size = t.font_size)
    (hnb : ∀ s ∈ filtered_spans sbp tl, s.is_bold = false) :
    assign_heading_levels sbp tl = [] := by
  obtain ⟨s0, hs0⟩ := List.exists_mem_of_ne_nil _ hne
  have hmemss : ∀ q ∈ sorted_sizes (filtered_spans sbp tl), q = s0.font_size := by
    intro q hq
    rw [mem_sorted_sizes, List.mem_map] at hq
    obtain ⟨s, hs, rfl⟩ := hq
    exact hsz s hs s0 hs0
  have hq0mem : s0.font_size ∈ sorted_sizes (filtered_spans sbp tl) := by
    rw [mem_sorted_sizes, List.mem_map]
    exact ⟨s0, hs0, rfl⟩
  have hss : sorted_sizes (filtered_spans sbp tl) = [s0.font_size] := by
    have hnd := sorted_sizes_nodup (filtered_spans sbp tl)
    rcases hssc : sorted_sizes (filtered_spans sbp tl) with _ | ⟨a, t⟩
    · rw [hssc] at hq0mem
      simp at hq0mem
    · rw [hssc] at hmemss hnd
      have ha : a = s0.font_size := hmemss a (List.mem_cons_self _ _)
      rcases t with _ | ⟨b, t'⟩
      · rw [ha]
      · have hb : b = s0.font_size := hmemss b (by simp)
        rw [List.nodup_cons] at hnd
        exact absurd (by simp [ha, hb] : a ∈ b :: t') hnd.1
  have h1 : h1_size (sorted_sizes (filtered_spans sbp tl)) = s0.font_size := by
    rw [hss]
    rfl
  have h2 : h2_size (sorted_sizes (filtered_spans sbp tl)) = s0.font_size - 1 := by
    rw [hss, h2_size, h1_size]
    rfl
  have h3 : h3_size (sorted_sizes (filtered_spans sbp tl)) = s0.font_size - 2 := by
    rw [hss, h3_size, h2_size, h1_size]
    simp
    ring
  have hraw : rawHeadings (h1_size (sorted_sizes (filtered_spans sbp tl)))
      (h2_size (sorted_sizes (filtered_spans sbp tl)))
      (h3_size (sorted_sizes (filtered_spans sbp tl)))
      (filtered_spans sbp tl) = [] := by
    rw [rawHeadings, List.filterMap_eq_nil_iff]
    intro s hs
    have hsize : s.font_size = s0.font_size := hsz s hs s0 hs0
    have c1 : ¬(s.font_size = h1_size (sorted_sizes (filtered_spans sbp tl)) ∧
        s.is_bold = true) := by
      rw [hnb s hs]
      simp
    have c2 : s.font_size ≠ h2_size (sorted_sizes (filtered_spans sbp tl)) := by
      rw [hsize, h2]
      intro hc
      linarith
    have c3 : s.font_size ≠ h3_size (sorted_sizes (filtered_spans sbp tl)) := by
      rw [hsize, h3]
      intro hc
      linarith
    have hlv : levelOf (h1_size (sorted_sizes (filtered_spans sbp tl)))
        (h2_size (sorted_sizes (filtered_spans sbp tl)))
        (h3_size (sorted_sizes (filtered_spans sbp tl))) s = none := by
      rw [levelOf, if_neg c1, if_neg c2, if_neg c3]
    rw [hlv]
  rw [assign_eq, hraw]
  rfl

/-- C10, witness: a page of two size-14 non-bold spans yields no heading. -/
theorem c10_witness :
    assign_heading_levels plainPage [] = [] :=
  c10_no_headings plainPage [] (by decide) (by decide) (by decide)

/-- C5: the outline has no two entries with the same (level, text, page)
triple; it is sorted by page then level rank; it is the stable sort of the
first-occurrence deduplication of the raw heading list (the source's
seen-set loop equals the spec-side fold), and the sort preserves the
relative order of entries with equal sort keys. -/
theorem c5_dedup_sort (sbp : List (List Span)) (tl : List Span) :
    (assign_heading_levels sbp tl).Pairwise
        (fun a b => ¬(a.level = b.level ∧ a.text = b.text ∧ a.page = b.page)) ∧
    (assign_heading_levels sbp tl).Sorted headingLe ∧
    assign_heading_levels sbp tl =
      (firstOccurrenceDedup
        (rawHeadings (h1_size (sorted_sizes (filtered_spans sbp tl)))
          (h2_size (sorted_sizes (filtered_spans sbp tl)))
          (h3_size (sorted_sizes (filtered_spans sbp tl)))
          (filtered_spans sbp tl))).insertionSort headingLe ∧
    (∀ a b : Heading,
      [a, b].Sublist
          (dedupKeep []
            (rawHeadings (h1_size (sorted_sizes (filtered_spans sbp tl)))
              (h2_size (sorted_sizes (filtered_spans sbp tl)))
              (h3_size (sorted_sizes (filtered_spans sbp tl)))
              (filtered_spans sbp tl))) →
        headingLe a b → [a, b].Sublist (assign_heading_levels sbp tl)) := by
  have hfields : ∀ a b : Heading,
      a.level = b.level ∧ a.text = b.text ∧ a.page = b.page → a = b := by
    intro a b he
    obtain ⟨e1, e2, e3⟩ := he
    cases a
    cases b
    simp_all
  refine ⟨?_, ?_, ?_, ?_⟩
  · rw [assign_eq]
    have hnd : (dedupKeep []
        (rawHeadings (h1_size (sorted_sizes (filtered_spans sbp tl)))
          (h2_size (sorted_sizes (filtered_spans sbp tl)))
          (h3_size (sorted_sizes (filtered_spans sbp tl)))
          (filtered_spans sbp tl))).Nodup := dedupKeep_nodup _ _
    have hnodup := (List.perm_insertionSort headingLe _).symm.nodup hnd
    exact hnodup.imp fun hne ht => hne (hfields _ _ ht)
  · rw [assign_eq]
    exact List.sorted_insertionSort _ _
  · rw [assign_eq, firstOccurrenceDedup_eq]
  · intro a b hsub hle
    rw [assign_eq]
    exact List.pair_sublist_insertionSort hle hsub

/-- C5, witness: on a page with a duplicated "Methods" span the outline
keeps one copy and is sorted H1, H2, H3; the stability instance holds at a
concrete equal-key-free pair. -/
theorem c5_witness :
    (assign_heading_levels c5Page []).Sorted headingLe ∧
      assign_heading_levels c5Page [] =
        [⟨Level.H1, "Chapter One", 0⟩, ⟨Level.H2, "Methods", 0⟩,
          ⟨Level.H3, "Fine Detail", 0⟩] ∧
      [(⟨Level.H1, "Chapter One", 0⟩ : Heading),
        ⟨Level.H2, "Methods", 0⟩].Sublist (assign_heading_levels c5Page []) := by
  obtain ⟨-, hsort, heq, hstab⟩ := c5_dedup_sort c5Page []
  refine ⟨hsort, ?_, hstab _ _ (by decide) (by decide)⟩
  rw [heq]
  decide

/-- Rounding `round(x, 1)` is the identity on integers. -/
theorem round1_intCast (n : ℤ) : round1 (n : ℚ) = n := by
  have h1 : (10 : ℚ) * (n : ℚ) = ((10 * n : ℤ) : ℚ) := by
    push_cast
    ring
  unfold round1 roundHalfEven
  rw [h1, Int.floor_intCast]
  simp only [sub_self]
  norm_num

/-- Evaluation of `extract_spans` on the example document: the three valid
fragments outside the table are kept, the "Inside Table" fragment is
dropped (its bbox overlaps the buffered table rectangle), sizes are
unchanged by rounding, and flag 2 marks boldness. -/
theorem extract_spans_exDoc :
    extract_spans exDoc =
      [[⟨"Title Text", 30, true, ⟨0, 10, 100, 20⟩, 0⟩,
        ⟨"Section A", 20, true, ⟨0, 40, 100, 48⟩, 0⟩,
        ⟨"sub note", 12, false, ⟨0, 60, 100, 66⟩, 0⟩]] := by
  have h30 : round1 (30 : ℚ) = 30 := by
    have hc : ((30 : ℤ) : ℚ) = (30 : ℚ) := by norm_num
    rw [← hc, round1_intCast]
  have h20 : round1 (20 : ℚ) = 20 := by
    have hc : ((20 : ℤ) : ℚ) = (20 : ℚ) := by norm_num
    rw [← hc, round1_intCast]
  have h12 : round1 (12 : ℚ) = 12 := by
    have hc : ((12 : ℤ) : ℚ) = (12 : ℚ) := by norm_num
    rw [← hc, round1_intCast]
  have hi1 : intersects ⟨0, 10, 100, 20⟩ (bufferedRect ⟨0, 120, 100, 200⟩) = false := by
    norm_num [intersects, bufferedRect, BUFFER_SIZE, max_def, min_def]
  have hi2 : intersects ⟨0, 40, 100, 48⟩ (bufferedRect ⟨0, 120, 100, 200⟩) = false := by
    norm_num [intersects, bufferedRect, BUFFER_SIZE, max_def, min_def]
  have hi3 : intersects ⟨0, 60, 100, 66⟩ (bufferedRect ⟨0, 120, 100, 200⟩) = false := by
    norm_num [intersects, bufferedRect, BUFFER_SIZE, max_def, min_def]
  have hi4 : intersects ⟨10, 105, 90, 115⟩ (bufferedRect ⟨0, 120, 100, 200⟩) = true := by
    norm_num [intersects, bufferedRect, BUFFER_SIZE, max_def, min_def]
  have hv1 : is_valid_heading (normalize_text "Title Text") = true := by decide
  have hv2 : is_valid_heading (normalize_text "Section A") = true := by decide
  have hv3 : is_valid_heading (normalize_text "sub note") = true := by decide
  have hv4 : is_valid_heading (normalize_text "Inside Table") = true := by decide
  have hn1 : normalize_text "Title Text" = "Title Text" := by decide
  have hn2 : normalize_text "Section A" = "Section A" := by decide
  have hn3 : normalize_text "sub note" = "sub note" := by decide
  simp only [extract_spans, exDoc, List.enum, List.enumFrom, List.map_cons, List.map_nil,
    pageSpans, List.filterMap_cons, List.filterMap_nil, hv1, hv2, hv3, hv4, hn1, hn2, hn3,
    List.any_cons, List.any_nil, hi1, hi2, hi3, hi4, h30, h20, h12, Bool.or_false,
    Bool.false_eq_true, not_false_eq_true, if_true, if_false, Bool.not_true, ite_true, ite_false]
  decide

/-- Evaluation of the whole pipeline on the example document. -/
theorem extract_outline_exDoc :
    extract_outline_from_pdf exDoc =
      ⟨"Title Text", [⟨Level.H1, "Section A", 0⟩, ⟨Level.H2, "sub note", 0⟩]⟩ := by
  simp only [extract_outline_from_pdf, extract_spans_exDoc]
  decide

/-- C6: every heading of the final outline has a text that passes
`is_valid_heading` and differs from the text of every constituent span of
the extracted title. -/
theorem c6_outline_invariant (doc : List PageInput) (h : Heading)
    (hm : h ∈ (extract_outline_from_pdf doc).outline) :
    is_valid_heading h.text = true ∧
      ∀ s ∈ (extract_title ((extract_spans doc).headD [])).title_spans, h.text ≠ s.text := by
  simp only [extract_outline_from_pdf] at hm
  obtain ⟨s, hs, -, hvalid, htext, -⟩ := mem_assign hm
  constructor
  · rw [htext]
    exact hvalid
  · intro s' hs' hEq
    rw [filtered_spans, List.mem_filter] at hs
    have hcond := hs.2
    simp only [Bool.not_eq_eq_eq_not, Bool.not_true, decide_eq_false_iff_not] at hcond
    exact hcond (htext ▸ hEq ▸ List.mem_map_of_mem Span.text hs')

/-- C6, witness: the H2 heading "sub note" of the example document passes
the validator and differs from the single title span's text. -/
theorem c6_witness :
    is_valid_heading (⟨Level.H2, "sub note", 0⟩ : Heading).text = true ∧
      ∀ s ∈ (extract_title ((extract_spans exDoc).headD [])).title_spans,
        (⟨Level.H2, "sub note", 0⟩ : Heading).text ≠ s.text := by
  apply c6_outline_invariant exDoc
  rw [extract_outline_exDoc]
  decide

/-- Within one page list of `extract_spans`, membership determines the
page input and index. -/
theorem mem_extract_spans {doc : List PageInput} {l : List Span}
    (hl : l ∈ extract_spans doc) :
    ∃ i p, doc[i]? = some p ∧ l = pageSpans i p := by
  rw [extract_spans, List.mem_map] at hl
  obtain ⟨⟨i, p⟩, hpr, rfl⟩ := hl
  rw [List.mk_mem_enum_iff_getElem?] at hpr
  exact ⟨i, p, hpr, rfl⟩

/-- C7: (a) a span collected by `extract_spans` for page `i` never
intersects a buffered table rectangle of that page, so a fragment whose
bbox intersects one is excluded from the collected span set; (b) every
heading of the final outline stems from a collected span of its page whose
bbox intersects no buffered table rectangle of that page. -/
theorem c7_table_exclusion (doc : List PageInput) :
    (∀ (i : ℕ) (spans : List Span), (extract_spans doc)[i]? = some spans →
      ∀ s ∈ spans, ∀ p : PageInput, doc[i]? = some p →
        ∀ tb ∈ p.tables, intersects s.bbox (bufferedRect tb) = false) ∧
    (∀ h ∈ (extract_outline_from_pdf doc).outline,
      ∃ spans, (extract_spans doc)[h.page]? = some spans ∧
        ∃ s ∈ spans, s.text = h.text ∧
          ∀ p : PageInput, doc[h.page]? = some p →
            ∀ tb ∈ p.tables, intersects s.bbox (bufferedRect tb) = false) := by
  constructor
  · intro i spans hsp s hs p hp tb htb
    rw [extract_spans_getElem?, hp] at hsp
    obtain rfl := Option.some.inj hsp
    exact pageSpans_no_table hs tb htb
  · intro h hm
    simp only [extract_outline_from_pdf] at hm
    rcases hes : extract_spans doc with _ | ⟨hd, rest⟩
    · rw [hes] at hm
      obtain ⟨s, hs, -, -, -, -⟩ := mem_assign hm
      rw [filtered_spans, List.mem_filter] at hs
      have := hs.1
      simp [all_spans_of] at this
    · rw [hes] at hm
      obtain ⟨s, hs, -, -, htext, hpage⟩ := mem_assign hm
      rw [filtered_spans, List.mem_filter] at hs
      have hflat : s ∈ (List.headD (hd :: rest) []) ∨ s ∈ rest.flatten := by
        have h1 := hs.1
        simp only [all_spans_of, List.headD_cons, List.flatten_cons, List.mem_append,
          List.mem_flatten] at h1 ⊢
        rcases h1 with hpost | hrest
        · exact Or.inl ((extract_title_post_perm _).mem_iff.mp hpost)
        · exact Or.inr hrest
      have hsl : ∃ l ∈ extract_spans doc, s ∈ l := by
        rw [hes]
        rcases hflat with hhd | hrest
        · exact ⟨hd, List.mem_cons_self _ _, by simpa using hhd⟩
        · rw [List.mem_flatten] at hrest
          obtain ⟨l, hl, hsl⟩ := hrest
          exact ⟨l, List.mem_cons_of_mem _ hl, hsl⟩
      obtain ⟨l, hlmem, hsl⟩ := hsl
      obtain ⟨i, p, hip, rfl⟩ := mem_extract_spans hlmem
      have hpagei : s.page = i := pageSpans_page hsl
      refine ⟨pageSpans i p, ?_, s, hsl, htext.symm, ?_⟩
      · rw [← hes, extract_spans_getElem?, hpage, hpagei, hip]
        rfl
      · intro p' hp' tb htb
        rw [hpage, hpagei, hip] at hp'
        obtain rfl := Option.some.inj hp'
        exact pageSpans_no_table hsl tb htb

/-- C7, witness: on the example document, the "Section A" span of page 0
does not intersect the buffered rectangle of the page's table, and the H2
heading "sub note" traces back to a collected page-0 span clear of all
buffered table rectangles. -/
theorem c7_witness :
    intersects (⟨"Section A", 20, true, ⟨0, 40, 100, 48⟩, 0⟩ : Span).bbox
        (bufferedRect ⟨0, 120, 100, 200⟩) = false ∧
      ∃ spans, (extract_spans exDoc)[(⟨Level.H2, "sub note", 0⟩ : Heading).page]? = some spans ∧
        ∃ s ∈ spans, s.text = (⟨Level.H2, "sub note", 0⟩ : Heading).text ∧
          ∀ p : PageInput, exDoc[(⟨Level.H2, "sub note", 0⟩ : Heading).page]? = some p →
            ∀ tb ∈ p.tables, intersects s.bbox (bufferedRect tb) = false := by
  obtain ⟨hA, hB⟩ := c7_table_exclusion exDoc
  constructor
  · have hsp : (extract_spans exDoc)[0]? =
        some [⟨"Title Text", 30, true, ⟨0, 10, 100, 20⟩, 0⟩,
          ⟨"Section A", 20, true, ⟨0, 40, 100, 48⟩, 0⟩,
          ⟨"sub note", 12, false, ⟨0, 60, 100, 66⟩, 0⟩] := by
      rw [extract_spans_exDoc]
      decide
    exact hA 0 _ hsp ⟨"Section A", 20, true, ⟨0, 40, 100, 48⟩, 0⟩ (by decide)
      ⟨[⟨"Title Text", 30, 2, ⟨0, 10, 100, 20⟩⟩,
        ⟨"Section A", 20, 2, ⟨0, 40, 100, 48⟩⟩,
        ⟨"sub note", 12, 0, ⟨0, 60, 100, 66⟩⟩,
        ⟨"Inside Table", 40, 2, ⟨10, 105, 90, 115⟩⟩],
       [⟨0, 120, 100, 200⟩]⟩ (by decide) ⟨0, 120, 100, 200⟩ (by decide)
  · exact hB ⟨Level.H2, "sub note", 0⟩ (by rw [extract_outline_exDoc]; decide)

end Stripe
